import Mathlib

/-!
Verification of the go-swagger SDK (package api and package gin) against its
specification.  The development shallowly embeds the Go code: Go maps become
association lists, Go dynamic values (interface values) become inductive types,
float64 thresholds become rationals, and the wall clock read by the schema
synthesizer (time.Now) becomes an explicit String argument carrying the
RFC3339-formatted current time.  Functions keep the names of the Go functions
they embed.
-/

namespace GoSwagger

/-! Association-list helpers, modelling Go map lookup and assignment. -/

def lookupA {α : Type} : List (String × α) → String → Option α
  | [], _ => none
  | (k, v) :: t, key => if k = key then some v else lookupA t key

def hasKeyA {α : Type} (l : List (String × α)) (k : String) : Bool :=
  (lookupA l k).isSome

def insertA {α : Type} : List (String × α) → String → α → List (String × α)
  | [], k, v => [(k, v)]
  | (k0, v0) :: t, k, v =>
      if k0 = k then (k0, v) :: t else (k0, v0) :: insertA t k v

/-! Dynamic Go values (interface values) as they occur in ValidationRule.Value:
float64 constants, int constants, strings, and slices of values. -/

inductive GoVal : Type where
  | float (q : ℚ)
  | int (n : ℤ)
  | str (s : String)
  | list (l : List GoVal)

/-- Rendering of a dynamic value as Go fmt.Sprintf with the v verb does;
float formatting is approximated (no claim depends on it). -/
def goValToString : GoVal → String
  | .float q => toString q
  | .int n => toString n
  | .str s => s
  | .list _ => "[...]"

/-- Embeds strconv.ParseFloat on the decimal forms: an optional sign,
digits with an optional fraction part, and an optional decimal exponent.
Returns none exactly when Go ParseFloat returns an error on such inputs. -/
def parseFloat (s : String) : Option ℚ :=
  let l := s.data
  let signAndRest : ℤ × List Char :=
    match l with
    | '+' :: t => (1, t)
    | '-' :: t => (-1, t)
    | t => (1, t)
  let sign := signAndRest.1
  let l1 := signAndRest.2
  let ip := l1.takeWhile Char.isDigit
  let l2 := l1.dropWhile Char.isDigit
  let fpAndRest : List Char × List Char :=
    match l2 with
    | '.' :: t => (t.takeWhile Char.isDigit, t.dropWhile Char.isDigit)
    | t => ([], t)
  let fp := fpAndRest.1
  let l3 := fpAndRest.2
  if ip = [] ∧ fp = [] then none
  else
    let digitsVal : List Char → ℕ := fun ds => ds.foldl (fun a c => a * 10 + (c.toNat - 48)) 0
    let num : ℤ := sign * (digitsVal (ip ++ fp) : ℤ)
    let den : ℕ := 10 ^ fp.length
    match l3 with
    | [] => some (mkRat num den)
    | e :: t =>
      if e = 'e' ∨ e = 'E' then
        let esignAndRest : Bool × List Char :=
          match t with
          | '+' :: u => (true, u)
          | '-' :: u => (false, u)
          | u => (true, u)
        let ed := esignAndRest.2.takeWhile Char.isDigit
        let t2 := esignAndRest.2.dropWhile Char.isDigit
        if ed = [] ∨ t2 ≠ [] then none
        else if esignAndRest.1 then some (mkRat (num * (10 ^ digitsVal ed : ℕ)) den)
        else some (mkRat num (den * 10 ^ digitsVal ed))
      else none

/-- Embeds regexp.MatchString restricted to literal patterns (pattern occurs
as a substring).  No claim in this development evaluates a pattern rule. -/
def regexpMatchLit (pat s : String) : Bool :=
  decide (pat.data <:+: s.data)

/-- Embeds the success condition of url.ParseRequestURI, approximated:
the value is accepted when nonempty and either rooted or carrying a scheme
separator.  No claim in this development evaluates a url rule. -/
def parseRequestURIOk (s : String) : Bool :=
  (!(s == "")) && ((match s.data with | '/' :: _ => true | _ => false) || s.data.contains ':')

/-- A declarative validation rule: kind tag, dynamic comparison value, and
user-facing message (Go struct ValidationRule). -/
structure ValidationRule where
  type : String
  value : GoVal
  message : String

/-- A parameter description (Go struct Parameter); only the fields consumed by
the embedded functions are modelled.  The Go field named In is called
location here because in is a Lean keyword. -/
structure Parameter where
  name : String
  location : String := ""
  description : String := ""
  required : Bool := false
  validations : List ValidationRule := []

/-- One arm of the rule switch inside Parameter.Validate.  Returns some msg
when the rule fails with message msg, none when it passes or is skipped. -/
def evalRule (r : ValidationRule) (s : String) : Option String :=
  if r.type = "min" then
    match r.value with
    | .float m =>
        match parseFloat s with
        | some q => if q < m then some r.message else none
        | none => none
    | .int n => if (s.length : ℤ) < n then some r.message else none
    | _ => none
  else if r.type = "max" then
    match r.value with
    | .float m =>
        match parseFloat s with
        | some q => if m < q then some r.message else none
        | none => none
    | .int n => if n < (s.length : ℤ) then some r.message else none
    | _ => none
  else if r.type = "pattern" then
    match r.value with
    | .str pat => if regexpMatchLit pat s then none else some r.message
    | _ => none
  else if r.type = "enum" then
    match r.value with
    | .list vs => if vs.map goValToString |>.contains s then none else some r.message
    | _ => none
  else if r.type = "email" then
    if s.data.contains '@' && s.data.contains '.' then none else some r.message
  else if r.type = "url" then
    if parseRequestURIOk s then none else some r.message
  else none

/-- The rule loop of Parameter.Validate: first failing rule wins. -/
def runRules : List ValidationRule → String → Option String
  | [], _ => none
  | r :: rs, s =>
      match evalRule r s with
      | some m => some m
      | none => runRules rs s

/-- Embeds Parameter.Validate.  The Go argument is an interface value; a nil
interface is none, and any non-nil value enters the function only through its
string rendering (the value is cast to string or rendered with Sprintf), so
the embedding takes that rendering directly as some s. -/
def Parameter.validate (p : Parameter) (v : Option String) : Option String :=
  match v with
  | none =>
      if p.required then some ("parameter " ++ p.name ++ " is required") else none
  | some s =>
      if p.required ∧ s = "" then some ("parameter " ++ p.name ++ " is required")
      else if s = "" ∧ ¬ p.required then none
      else runRules p.validations s

/-! The reflective type universe.  A GoType is the shape of a Go type as seen
by the schema synthesizer; integer kinds are grouped exactly as the Go switch
groups them, except that uint8 stays separate because the slice case tests for
it.  Types implementing a Time accessor method, OAuth flows, and non-string
map keys are outside the modelled universe (the code under verification never
constructs them on the paths the claims touch). -/

mutual
inductive GoType : Type where
  | stringT
  | intT      -- int, int8, int16, int32
  | int64T
  | uint8T
  | uintT     -- uint, uint16, uint32
  | uint64T
  | float32T
  | float64T
  | boolT
  | sliceT (elem : GoType)
  | arrayT (elem : GoType)
  | timeT     -- time.Time
  | structT (fields : List GoField)
  | ptrT (t : GoType)
  | ifaceT
  | mapT (value : GoType)
  | otherT    -- chan, func, complex, ...: default schema
inductive GoField : Type where
  | mk (name jsonTag validateTag docTag exampleTag formatTag : String) (type : GoType)
end

def GoField.name : GoField → String
  | .mk n _ _ _ _ _ _ => n

def GoField.jsonTag : GoField → String
  | .mk _ j _ _ _ _ _ => j

def GoField.validateTag : GoField → String
  | .mk _ _ v _ _ _ _ => v

def GoField.docTag : GoField → String
  | .mk _ _ _ d _ _ _ => d

def GoField.exampleTag : GoField → String
  | .mk _ _ _ _ e _ _ => e

def GoField.formatTag : GoField → String
  | .mk _ _ _ _ _ f _ => f

def GoField.type : GoField → GoType
  | .mk _ _ _ _ _ _ t => t

/-! Whether a type mentions time.Time anywhere the synthesizer can reach. -/

mutual
def GoType.hasTime : GoType → Bool
  | .timeT => true
  | .sliceT e => e.hasTime
  | .arrayT e => e.hasTime
  | .ptrT e => e.hasTime
  | .mapT e => e.hasTime
  | .structT fs => fieldsHaveTime fs
  | _ => false
def fieldsHaveTime : List GoField → Bool
  | [] => false
  | .mk _ _ _ _ _ _ ty :: fs => ty.hasTime || fieldsHaveTime fs
end

/-- Go reflect Type.String, approximated; claims only evaluate it on scalar
roots.  The interface and struct renderings omit the Go brace suffixes. -/
def typeName : GoType → String
  | .stringT => "string"
  | .intT => "int"
  | .int64T => "int64"
  | .uint8T => "uint8"
  | .uintT => "uint"
  | .uint64T => "uint64"
  | .float32T => "float32"
  | .float64T => "float64"
  | .boolT => "bool"
  | .sliceT e => "[]" ++ typeName e
  | .arrayT e => "[n]" ++ typeName e
  | .timeT => "time.Time"
  | .structT _ => "struct"
  | .ptrT t => "*" ++ typeName t
  | .ifaceT => "interface"
  | .mapT v => "map[string]" ++ typeName v
  | .otherT => "other"

/-! Schemas are Go values of type map[string]interface (built by the
synthesizer); modelled as a JSON tree with association-list objects. -/

inductive Json : Type where
  | str (s : String)
  | num (n : ℤ)
  | bool (b : Bool)
  | arr (xs : List Json)
  | obj (kvs : List (String × Json))

/-- Go map assignment schema[k] = v on an object schema. -/
def jsonSet (j : Json) (k : String) (v : Json) : Json :=
  match j with
  | .obj kvs => .obj (insertA kvs k v)
  | other => other

/-- The empty-object default schema the synthesizer returns for nil input. -/
def emptyObjectSchema : Json :=
  Json.obj [("type", .str "object"), ("properties", .obj [])]

/-- Character-level splitting, the semantics of Go strings.Split with a
single-character separator (and of String.splitOn, re-implemented over the
character list so that it evaluates by reduction). -/
def splitChars (sep : Char) : List Char → List (List Char)
  | [] => [[]]
  | c :: cs =>
      let r := splitChars sep cs
      if c = sep then [] :: r
      else
        match r with
        | h :: t => (c :: h) :: t
        | [] => [[c]]

def splitOnChar (sep : Char) (s : String) : List String :=
  (splitChars sep s.data).map String.mk

/-- Splits a json struct tag into external name and required-by-default flag,
embedding the omitempty handling inside SchemaFromStruct. -/
def jsonNameAndRequired (tag : String) : String × Bool :=
  if tag.data.contains ',' then
    let parts := splitOnChar ',' tag
    (parts.headD "", !(parts.tail.contains "omitempty"))
  else (tag, true)

/-- A field is skipped entirely when its json tag is empty or a dash. -/
def fieldVisible (f : GoField) : Bool :=
  !(f.jsonTag == "" || f.jsonTag == "-")

def fieldName (f : GoField) : String :=
  (jsonNameAndRequired f.jsonTag).1

/-- Required status of a field: required unless omitempty, forced back to
required by a required marker in the validate tag. -/
def fieldReq (f : GoField) : Bool :=
  (jsonNameAndRequired f.jsonTag).2
    || (decide (f.validateTag ≠ "") && (splitOnChar ',' f.validateTag).contains "required")

/-- The doc, example and format tag decorations SchemaFromStruct copies onto
a field schema. -/
def decorate (j : Json) (f : GoField) : Json :=
  let j1 := if f.docTag ≠ "" then jsonSet j "description" (.str f.docTag) else j
  let j2 := if f.exampleTag ≠ "" then jsonSet j1 "example" (.str f.exampleTag) else j1
  if f.formatTag ≠ "" then jsonSet j2 "format" (.str f.formatTag) else j2

def isUint8 : GoType → Bool
  | .uint8T => true
  | _ => false

/-! Schema synthesis.  createSchemaFromGoType embeds the Go function of the
same name; the now argument is the RFC3339 rendering of time.Now at the
moment of the call, which the Go code embeds as the example of a time.Time
schema.  processFieldsAux embeds the field loop of SchemaFromStruct,
accumulating properties and required names left to right: a field is skipped
when not visible, and otherwise its schema is created, decorated and assigned
under its external name, with the name appended to required when the field is
required. -/

mutual
def createSchemaFromGoType (now : String) : GoType → Json
  | .stringT => Json.obj [("type", .str "string")]
  | .intT => Json.obj [("type", .str "integer"), ("format", .str "int32")]
  | .int64T => Json.obj [("type", .str "integer"), ("format", .str "int64")]
  | .uint8T => Json.obj [("type", .str "integer"), ("format", .str "int32"), ("minimum", .num 0)]
  | .uintT => Json.obj [("type", .str "integer"), ("format", .str "int32"), ("minimum", .num 0)]
  | .uint64T => Json.obj [("type", .str "integer"), ("format", .str "int64"), ("minimum", .num 0)]
  | .float32T => Json.obj [("type", .str "number"), ("format", .str "float")]
  | .float64T => Json.obj [("type", .str "number"), ("format", .str "double")]
  | .boolT => Json.obj [("type", .str "boolean")]
  | .sliceT e =>
      if isUint8 e then Json.obj [("type", .str "string"), ("format", .str "byte")]
      else Json.obj [("type", .str "array"), ("items", createSchemaFromGoType now e)]
  | .arrayT e => Json.obj [("type", .str "array"), ("items", createSchemaFromGoType now e)]
  | .timeT =>
      Json.obj [("type", .str "string"), ("format", .str "date-time"), ("example", .str now)]
  | .structT fs =>
      let pr := processFieldsAux now fs ([], [])
      if pr.2.length > 0 then
        Json.obj [("type", .str "object"), ("properties", .obj pr.1),
                  ("required", .arr (pr.2.map Json.str))]
      else Json.obj [("type", .str "object"), ("properties", .obj pr.1)]
  | .ptrT t => createSchemaFromGoType now t
  | .ifaceT => Json.obj [("type", .str "object"), ("additionalProperties", .bool true)]
  | .mapT v => Json.obj [("type", .str "object"), ("additionalProperties", createSchemaFromGoType now v)]
  | .otherT => Json.obj [("type", .str "string")]
termination_by structural t => t
def processFieldsAux (now : String) :
    List GoField → List (String × Json) × List String → List (String × Json) × List String
  | [], acc => acc
  | .mk nm jt vt dt et ft ty :: fs, acc =>
      let f := GoField.mk nm jt vt dt et ft ty
      if fieldVisible f then
        processFieldsAux now fs
          (insertA acc.1 (fieldName f) (decorate (createSchemaFromGoType now ty) f),
           if fieldReq f then acc.2 ++ [fieldName f] else acc.2)
      else processFieldsAux now fs acc
termination_by structural fs => fs
end

/-- The object schema SchemaFromStruct builds for a struct with the given
fields: properties plus, when nonempty, the required list. -/
def schemaFromFields (now : String) (fs : List GoField) : Json :=
  let pr := processFieldsAux now fs ([], [])
  if pr.2.length > 0 then
    Json.obj [("type", .str "object"), ("properties", .obj pr.1),
              ("required", .arr (pr.2.map Json.str))]
  else Json.obj [("type", .str "object"), ("properties", .obj pr.1)]

/-- One level of pointer unwrapping, as both entry points perform. -/
def derefOnce : GoType → GoType
  | .ptrT t => t
  | t => t

/-- Whether reflect reports kind Struct (time.Time is itself a struct). -/
def isStructKind : GoType → Bool
  | .structT _ => true
  | .timeT => true
  | _ => false

/-- Embeds SchemaFromStruct.  The Go argument is an interface value; a nil
interface is none, and otherwise only the dynamic TYPE of the value is ever
consulted (the value itself is never dereferenced), so the embedding takes
the dynamic type.  A top-level time.Time has struct kind and only unexported
fields, hence synthesizes to the empty-object schema. -/
def SchemaFromStruct (now : String) : Option GoType → Except String Json
  | none => .ok emptyObjectSchema
  | some t =>
      match derefOnce t with
      | .structT fs => .ok (schemaFromFields now fs)
      | .timeT => .ok emptyObjectSchema
      | u => .error ("input must be a struct type, got " ++ typeName u)

/-- Embeds SafeSchemaFromStruct (the panic-recovery wrapper has no observable
effect in the modelled universe, where synthesis never panics). -/
def SafeSchemaFromStruct (now : String) : Option GoType → Except String Json
  | none => .ok emptyObjectSchema
  | some t =>
      if isStructKind (derefOnce t) then
        match SchemaFromStruct now (some t) with
        | .ok s => .ok s
        | .error e => .error ("failed to generate schema: " ++ e)
      else .error ("invalid type provided: " ++ typeName (derefOnce t))

/-! The router layer (package gin): APIDefinition, APIRouter state,
Register, BuildOpenAPI and GenerateSwagger. -/

/-- ASCII upper-casing, the semantics of strings.ToUpper on the method
strings the router compares (re-implemented over the character list so that
it evaluates by reduction). -/
def asciiToUpper (s : String) : String :=
  String.mk (s.data.map Char.toUpper)

/-- ASCII lower-casing, the semantics of strings.ToLower on tags. -/
def asciiToLower (s : String) : String :=
  String.mk (s.data.map Char.toLower)

/-- An API definition (Go struct APIDefinition).  The two handler slots are
functions in Go and only their presence is ever consulted, so they are
modelled as presence flags.  Deprecated, ExternalDocs, Examples and Servers
are never read by the embedded functions and are omitted. -/
structure APIDefinition where
  method : String
  path : String
  operationId : String := ""
  summary : String := ""
  description : String := ""
  tags : List String := []
  request : Option GoType := none
  response : Option GoType := none
  params : List Parameter := []
  handler : Bool := false
  nativeHandler : Bool := false
  security : List (List (String × List String)) := []

/-- A security scheme (Go struct SecurityScheme); OAuth flows are outside the
modelled universe. -/
structure SecurityScheme where
  type : String
  description : String := ""
  name : String := ""
  location : String := ""
  scheme : String := ""
  bearerFormat : String := ""
  openIdConnectUrl : String := ""

structure OpenAPIServer where
  url : String
  description : String

/-- A response entry (Go struct Response); content, when present, is the
schema served under the application/json media type. -/
structure Response where
  description : String
  content : Option Json := none

/-- An operation (Go struct Operation); requestBody, when present, is the
schema under the application/json media type of the request body. -/
structure Operation where
  summary : String := ""
  description : String := ""
  operationId : String := ""
  tags : List String := []
  parameters : List Parameter := []
  requestBody : Option Json := none
  responses : List (String × Response) := []
  security : List (List (String × List String)) := []

structure PathItem where
  get : Option Operation := none
  post : Option Operation := none
  put : Option Operation := none
  delete : Option Operation := none
  patch : Option Operation := none

def emptyPathItem : PathItem := {}

/-- The operations stored in a path item, in method order. -/
def opsOf (pi : PathItem) : List Operation :=
  [pi.get, pi.post, pi.put, pi.delete, pi.patch].reduceOption

/-- The assembled document (Go struct OpenAPIDoc).  The components block of
the built document only ever carries security schemes (the other component
maps stay nil), so it is modelled by that field alone; the info block is
inlined. -/
structure OpenAPIDoc where
  openapi : String
  title : String
  version : String
  description : String
  servers : List OpenAPIServer
  paths : List (String × PathItem)
  securitySchemes : List (String × SecurityScheme)
  security : List (List (String × List String))

/-- The APIRouter state: registered definitions, document info, the cached
serialized document and the generated flag.  The gin engine is modelled as
the list of (method, full path) routes handed to it. -/
structure RouterState where
  definitions : List APIDefinition := []
  basePath : String := ""
  title : String := ""
  version : String := ""
  description : String := ""
  swaggerDoc : Option String := none
  generated : Bool := false
  securitySchemes : List (String × SecurityScheme) := []
  globalSecurity : List (List (String × List String)) := []
  engine : List (String × String) := []

def supportedMethod (m : String) : Bool :=
  m == "GET" || m == "POST" || m == "PUT" || m == "DELETE" || m == "PATCH"

/-- Embeds APIRouter.Register.  A nil argument is none.  On success the
upper-cased method and prefixed path are handed to the engine and the
definition is appended verbatim (with its original method string). -/
def register (st : RouterState) (d : Option APIDefinition) : Except String RouterState :=
  match d with
  | none => .error "api definition cannot be nil"
  | some a =>
      if ¬ a.nativeHandler ∧ ¬ a.handler then
        .error ("handler cannot be nil for path: " ++ a.path)
      else if a.path = "" then .error "path cannot be empty"
      else
        let m := asciiToUpper a.method
        if supportedMethod m then
          .ok { st with
                engine := st.engine ++ [(m, st.basePath ++ a.path)],
                definitions := st.definitions ++ [a] }
        else .error ("unsupported HTTP method: " ++ a.method)

/-- The Go method mutates the receiver only on success; this is the state
after a Register call, error or not. -/
def registerState (st : RouterState) (d : Option APIDefinition) : RouterState :=
  match register st d with
  | .ok st2 => st2
  | .error _ => st

/-- The per-definition operation build of BuildOpenAPI, second half: response
schema, then the default 400 and 500 responses. -/
def buildOpResp (now : String) (d : APIDefinition) (op : Operation) : Except String Operation :=
  let finish : Operation → Operation := fun o =>
    let rs := insertA (insertA o.responses "400" ({ description := "Bad Request" } : Response))
      "500" ({ description := "Internal Server Error" } : Response)
    { o with responses := rs }
  match d.response with
  | none => .ok (finish op)
  | some _ =>
      match SafeSchemaFromStruct now d.response with
      | .error e => .error ("failed to generate response schema: " ++ e)
      | .ok s =>
          let rs := insertA op.responses "200" { description := "Success", content := some s }
          .ok (finish { op with responses := rs })

/-- The per-definition operation build of BuildOpenAPI: summary, description,
tags and parameters are copied from the definition (the operation identifier
and the security requirements are NOT), then the request body schema. -/
def buildOp (now : String) (d : APIDefinition) : Except String Operation :=
  let op0 : Operation :=
    { summary := d.summary, description := d.description, tags := d.tags,
      parameters := if d.params.length > 0 then d.params else [],
      responses := [] }
  match d.request with
  | none => buildOpResp now d op0
  | some _ =>
      match SafeSchemaFromStruct now d.request with
      | .error e => .error ("failed to generate request schema: " ++ e)
      | .ok s => buildOpResp now d { op0 with requestBody := some s }

/-- The method switch of BuildOpenAPI: the operation is stored under the slot
whose constant equals the stored method string exactly; otherwise the path
item is left unchanged. -/
def setOp (pi : PathItem) (method : String) (op : Operation) : PathItem :=
  if method = "GET" then { pi with get := some op }
  else if method = "POST" then { pi with post := some op }
  else if method = "PUT" then { pi with put := some op }
  else if method = "DELETE" then { pi with delete := some op }
  else if method = "PATCH" then { pi with patch := some op }
  else pi

/-- The loop of BuildOpenAPI over the registered definitions, folding path
items into the paths map. -/
def buildPaths (now : String) :
    List APIDefinition → List (String × PathItem) → Except String (List (String × PathItem))
  | [], acc => .ok acc
  | d :: ds, acc =>
      match buildOp now d with
      | .error e => .error e
      | .ok op =>
          let pi := (lookupA acc d.path).getD emptyPathItem
          buildPaths now ds (insertA acc d.path (setOp pi d.method op))

/-- Embeds APIRouter.BuildOpenAPI. -/
def buildOpenAPI (st : RouterState) (now : String) : Except String OpenAPIDoc :=
  match buildPaths now st.definitions [] with
  | .error e => .error e
  | .ok ps =>
      .ok { openapi := "3.0.0", title := st.title, version := st.version,
            description := st.description,
            servers := [{ url := st.basePath, description := "API Server" }],
            paths := ps,
            securitySchemes := st.securitySchemes,
            security := st.globalSecurity }

/-! generateOperationID: the stored path is stripped of brace-delimited
parameter placeholders, every non-alphanumeric character becomes an
underscore, runs of underscores collapse, outer underscores are trimmed, and
the lower-cased first tag (or the constant word operation) is prefixed. -/

/-- The opening brace character. -/
def lbChar : Char := Char.ofNat 123

/-- The closing brace character. -/
def rbChar : Char := Char.ofNat 125

/-- Splits a character list at its first closing brace: the characters before
it and the remainder after it, or none when no closing brace occurs. -/
def splitAtClose : List Char → Option (List Char × List Char)
  | [] => none
  | c :: cs =>
      if c = rbChar then some ([], cs)
      else
        match splitAtClose cs with
        | some (seg, rest) => some (c :: seg, rest)
        | none => none

/-- Removes every leftmost match of an opening brace, one or more non-brace
characters, and a closing brace (the regular expression the Go code applies
to the path).  Fuel-driven; the fuel is the list length, which bounds the
number of scanning steps. -/
def stripBraceParamsAux : ℕ → List Char → List Char
  | 0, l => l
  | fuel + 1, l =>
      match l with
      | [] => []
      | c :: cs =>
          if c = lbChar then
            match splitAtClose cs with
            | some (seg, rest) =>
                if seg.isEmpty then c :: stripBraceParamsAux fuel cs
                else stripBraceParamsAux fuel rest
            | none => c :: stripBraceParamsAux fuel cs
          else c :: stripBraceParamsAux fuel cs

def stripBraceParams (l : List Char) : List Char :=
  stripBraceParamsAux l.length l

/-! Collapsing every run of underscores to a single underscore (the regexp
replacement of one-or-more underscores); collapseSkip consumes the rest of a
run whose first underscore has been kept. -/

mutual
def collapseUnderscores : List Char → List Char
  | [] => []
  | c :: cs => if c = '_' then '_' :: collapseSkip cs else c :: collapseUnderscores cs
def collapseSkip : List Char → List Char
  | [] => []
  | c :: cs => if c = '_' then collapseSkip cs else c :: collapseUnderscores cs
end

/-- Trims underscores from both ends (strings.Trim with an underscore
cutset). -/
def trimUnderscores (l : List Char) : List Char :=
  ((l.dropWhile (· = '_')).reverse.dropWhile (· = '_')).reverse

/-- Embeds generateOperationID: sanitized path suffixed to the lower-cased
first tag, or to the word operation when the operation carries no tags. -/
def generateOperationID (path : String) (op : Operation) : String :=
  let p1 := stripBraceParams path.data
  let p2 := p1.map (fun c => if c.isAlphanum then c else '_')
  let p3 := collapseUnderscores p2
  let p4 := trimUnderscores p3
  let pfx := match op.tags with
    | [] => "operation"
    | t :: _ => asciiToLower t
  pfx ++ "_" ++ String.mk p4

/-- The per-operation pass of GenerateSwagger: default 400 and 500 responses
are added when missing; 401 and 403 are added when missing and the operation
carries at least one security requirement; finally, an operation without an
operation identifier receives the generated one. -/
def addDefaults (path : String) (op : Operation) : Operation :=
  let rs0 := op.responses
  let rs1 := if hasKeyA rs0 "400" then rs0
    else insertA rs0 "400" { description := "Bad Request - Invalid input parameters" }
  let rs2 := if ¬ hasKeyA rs1 "401" ∧ op.security.length > 0 then
      insertA rs1 "401" { description := "Unauthorized - Authentication required" }
    else rs1
  let rs3 := if ¬ hasKeyA rs2 "403" ∧ op.security.length > 0 then
      insertA rs2 "403" { description := "Forbidden - Insufficient permissions" }
    else rs2
  let rs4 := if hasKeyA rs3 "500" then rs3
    else insertA rs3 "500" { description := "Internal Server Error" }
  let op1 := { op with responses := rs4 }
  if op1.operationId = "" then { op1 with operationId := generateOperationID path op1 }
  else op1

/-- The per-path-item pass of GenerateSwagger. -/
def applyDefaults (path : String) (pi : PathItem) : PathItem :=
  { get := pi.get.map (addDefaults path),
    post := pi.post.map (addDefaults path),
    put := pi.put.map (addDefaults path),
    delete := pi.delete.map (addDefaults path),
    patch := pi.patch.map (addDefaults path) }

/-! Serialization of the assembled document.  This models the byte snapshot
json.MarshalIndent produces: a deterministic function of the document.  The
rendering is compact rather than indented and object keys appear in
construction order (map-backed objects are key-sorted first, matching the Go
encoder); string escaping is not modelled, as no string in the modelled
universe requires it. -/

def lbS : String := String.singleton lbChar

def rbS : String := String.singleton rbChar

def quoteS (s : String) : String := "\"" ++ s ++ "\""

/-- Lexicographic order on strings as character lists (the byte order the Go
JSON encoder sorts map keys by). -/
def charListLt : List Char → List Char → Bool
  | [], [] => false
  | [], _ :: _ => true
  | _ :: _, [] => false
  | a :: as, b :: bs =>
      if a.toNat < b.toNat then true
      else if b.toNat < a.toNat then false
      else charListLt as bs

/-- Insertion sort of an association list by key, modelling the sorted key
order the Go JSON encoder gives to map entries. -/
def insertSorted {α : Type} (kv : String × α) : List (String × α) → List (String × α)
  | [] => [kv]
  | x :: xs => if charListLt kv.1.data x.1.data then kv :: x :: xs else x :: insertSorted kv xs

def sortKeys {α : Type} : List (String × α) → List (String × α)
  | [] => []
  | kv :: rest => insertSorted kv (sortKeys rest)

mutual
def printJson : Json → String
  | .str s => quoteS s
  | .num n => toString n
  | .bool b => if b then "true" else "false"
  | .arr xs => "[" ++ printJsonList xs ++ "]"
  | .obj kvs => lbS ++ printJsonKVs kvs ++ rbS
def printJsonList : List Json → String
  | [] => ""
  | [x] => printJson x
  | x :: y :: rest => printJson x ++ "," ++ printJsonList (y :: rest)
def printJsonKVs : List (String × Json) → String
  | [] => ""
  | [(k, v)] => quoteS k ++ ":" ++ printJson v
  | (k, v) :: y :: rest => quoteS k ++ ":" ++ printJson v ++ "," ++ printJsonKVs (y :: rest)
end

def securityReqToJson (m : List (String × List String)) : Json :=
  Json.obj (m.map fun kv => (kv.1, Json.arr (kv.2.map Json.str)))

def serverToJson (s : OpenAPIServer) : Json :=
  Json.obj [("url", .str s.url), ("description", .str s.description)]

def paramToJson (p : Parameter) : Json :=
  Json.obj [("name", .str p.name), ("in", .str p.location),
            ("description", .str p.description), ("required", .bool p.required)]

def mediaToJson (schema : Json) : Json :=
  Json.obj [("content", Json.obj [("application/json", Json.obj [("schema", schema)])])]

def responseToJson (r : Response) : Json :=
  match r.content with
  | none => Json.obj [("description", .str r.description)]
  | some s =>
      Json.obj [("description", .str r.description),
                ("content", Json.obj [("application/json", Json.obj [("schema", s)])])]

def operationToJson (op : Operation) : Json :=
  Json.obj
    ([("summary", Json.str op.summary), ("description", Json.str op.description)]
      ++ (if op.operationId = "" then [] else [("operationId", Json.str op.operationId)])
      ++ [("tags", Json.arr (op.tags.map Json.str))]
      ++ (if op.parameters.isEmpty then []
          else [("parameters", Json.arr (op.parameters.map paramToJson))])
      ++ (match op.requestBody with
          | none => []
          | some s => [("requestBody", mediaToJson s)])
      ++ [("responses", Json.obj ((sortKeys op.responses).map fun kv => (kv.1, responseToJson kv.2)))]
      ++ (if op.security.isEmpty then []
          else [("security", Json.arr (op.security.map securityReqToJson))]))

def pathItemToJson (pi : PathItem) : Json :=
  Json.obj
    ((match pi.get with | some o => [("get", operationToJson o)] | none => [])
      ++ (match pi.post with | some o => [("post", operationToJson o)] | none => [])
      ++ (match pi.put with | some o => [("put", operationToJson o)] | none => [])
      ++ (match pi.delete with | some o => [("delete", operationToJson o)] | none => [])
      ++ (match pi.patch with | some o => [("patch", operationToJson o)] | none => []))

def schemeToJson (s : SecurityScheme) : Json :=
  Json.obj
    ([("type", Json.str s.type)]
      ++ (if s.description = "" then [] else [("description", Json.str s.description)])
      ++ (if s.name = "" then [] else [("name", Json.str s.name)])
      ++ (if s.location = "" then [] else [("in", Json.str s.location)])
      ++ (if s.scheme = "" then [] else [("scheme", Json.str s.scheme)])
      ++ (if s.bearerFormat = "" then [] else [("bearerFormat", Json.str s.bearerFormat)])
      ++ (if s.openIdConnectUrl = "" then [] else [("openIdConnectUrl", Json.str s.openIdConnectUrl)]))

def docToJson (d : OpenAPIDoc) : Json :=
  Json.obj
    ([("openapi", Json.str d.openapi),
      ("info", Json.obj [("title", .str d.title), ("version", .str d.version),
                         ("description", .str d.description)]),
      ("servers", Json.arr (d.servers.map serverToJson)),
      ("paths", Json.obj ((sortKeys d.paths).map fun kv => (kv.1, pathItemToJson kv.2)))]
      ++ [("components",
            Json.obj (if d.securitySchemes.isEmpty then []
              else [("securitySchemes",
                Json.obj ((sortKeys d.securitySchemes).map fun kv => (kv.1, schemeToJson kv.2)))]))]
      ++ (if d.security.isEmpty then []
          else [("security", Json.arr (d.security.map securityReqToJson))]))

/-- The post-build passes of GenerateSwagger on the document: the
default-server fallback (dead in practice, since the builder always seeds one
server) followed by the per-operation defaulting pass. -/
def finalizeDoc (st : RouterState) (doc0 : OpenAPIDoc) : OpenAPIDoc :=
  let doc1 := if doc0.servers.isEmpty then
      { doc0 with servers := [{ url := st.basePath, description := "Default server" }] }
    else doc0
  { doc1 with paths := doc1.paths.map fun pq => (pq.1, applyDefaults pq.1 pq.2) }

/-- Embeds GenerateSwagger: info validation, document build, the no-paths
check, document finalization, and the caching of the serialized snapshot with
the generated flag.  The components-init branch of the Go code is unreachable
because the builder always creates the components block, and is not
modelled. -/
def generateSwagger (st : RouterState) (now : String) :
    Except String (OpenAPIDoc × RouterState) :=
  if st.title = "" then .error "API title is required"
  else if st.version = "" then .error "API version is required"
  else
    match buildOpenAPI st now with
    | .error e => .error ("failed to build OpenAPI document: " ++ e)
    | .ok doc0 =>
        if doc0.paths.isEmpty then .error "no API paths defined"
        else
          let doc2 := finalizeDoc st doc0
          let bytes := printJson (docToJson doc2)
          .ok (doc2, { st with swaggerDoc := some bytes, generated := true })

/-- The router state after a GenerateSwagger call: mutated only on success,
at the very end of the call. -/
def generateSwaggerState (st : RouterState) (now : String) : RouterState :=
  match generateSwagger st now with
  | .ok r => r.2
  | .error _ => st

/-! General lemmas about the embedded functions. -/

lemma evalRule_required (r : ValidationRule) (s : String) (h : r.type = "required") :
    evalRule r s = none := by
  simp only [evalRule, h]
  simp

lemma runRules_append (l1 l2 : List ValidationRule) (s : String) :
    runRules (l1 ++ l2) s =
      match runRules l1 s with
      | some m => some m
      | none => runRules l2 s := by
  induction l1 with
  | nil => simp [runRules]
  | cons r rs ih =>
      simp only [List.cons_append, runRules]
      cases evalRule r s <;> simp [ih]

/-- C10 --- a ValidationRule whose Type is required is skipped by every arm
of the rule switch, so inserting or removing it anywhere in the rule list
leaves Parameter.Validate unchanged on every input; requiredness is enforced
only by the Required-flag checks at the top of Validate. -/
theorem validate_required_rule_noop (p : Parameter) (v : Option String)
    (pre post : List ValidationRule) (r : ValidationRule) (h : r.type = "required") :
    Parameter.validate { p with validations := pre ++ r :: post } v =
    Parameter.validate { p with validations := pre ++ post } v := by
  have hrun : ∀ s, runRules (pre ++ r :: post) s = runRules (pre ++ post) s := by
    intro s
    rw [runRules_append, runRules_append]
    cases runRules pre s with
    | some m => rfl
    | none => simp [runRules, evalRule_required r s h]
  cases v with
  | none => rfl
  | some s =>
      simp only [Parameter.validate]
      split
      · rfl
      · split
        · rfl
        · exact hrun s

theorem validate_required_rule_noop_witness :
    Parameter.validate
      { name := "age", required := true,
        validations := [⟨"required", GoVal.str "", "msg"⟩] } (some "7") =
    Parameter.validate { name := "age", required := true, validations := [] } (some "7") :=
  validate_required_rule_noop
    { name := "age", required := true, validations := [] } (some "7") [] []
    ⟨"required", GoVal.str "", "msg"⟩ rfl

/-- C3 --- a required parameter with the single rule min 18.0 accepts the
value 20, rejects 15 with the rule message, and accepts abc: a min or max
rule with a float64 threshold is silently skipped when the value does not
parse as a number, and the string-length reading is reserved for int
thresholds (general clause at the end). -/
theorem validate_min_float_threshold (m : String) :
    Parameter.validate
      { name := "age", required := true, validations := [⟨"min", GoVal.float 18, m⟩] }
      (some "20") = none ∧
    Parameter.validate
      { name := "age", required := true, validations := [⟨"min", GoVal.float 18, m⟩] }
      (some "15") = some m ∧
    Parameter.validate
      { name := "age", required := true, validations := [⟨"min", GoVal.float 18, m⟩] }
      (some "abc") = none ∧
    (∀ (q : ℚ) (msg s : String), s ≠ "" → parseFloat s = none →
      Parameter.validate
        { name := "age", required := true, validations := [⟨"min", GoVal.float q, msg⟩] }
        (some s) = none) := by
  refine ⟨by rfl, by rfl, by rfl, ?_⟩
  intro q msg s hs hp
  simp only [Parameter.validate, runRules, evalRule, hp]
  simp [hs]

theorem validate_min_float_threshold_witness :
    Parameter.validate
      { name := "age", required := true,
        validations := [⟨"min", GoVal.float 18, "Age must be at least 18"⟩] }
      (some "15") = some "Age must be at least 18" ∧
    Parameter.validate
      { name := "age", required := true,
        validations := [⟨"min", GoVal.float 21, "E2"⟩] }
      (some "x9z") = none :=
  ⟨(validate_min_float_threshold "Age must be at least 18").2.1,
   (validate_min_float_threshold "Age must be at least 18").2.2.2 21 "E2" "x9z"
     (by decide) (by rfl)⟩

/-! Concrete fixtures for the claims about the router. -/

def stFix : RouterState :=
  { basePath := "/api", title := "T", version := "1", description := "D" }

/-- A definition carrying both a standard and a native handler. -/
def defBothHandlers : APIDefinition :=
  { method := "GET", path := "/p", summary := "S", handler := true, nativeHandler := true }

/-- C5 (amended) --- Register rejects, each with its own error and without
touching the registered list: a nil definition, a definition with NEITHER
handler set (a definition with both set is accepted, contrary to the original
claim), an empty path, and an unsupported method; a definition passing all
checks is appended (and the upper-cased method is handed to the engine). -/
theorem register_validation (st : RouterState) (a : APIDefinition) :
    (register st none = .error "api definition cannot be nil" ∧
      registerState st none = st) ∧
    (a.handler = false → a.nativeHandler = false →
      register st (some a) = .error ("handler cannot be nil for path: " ++ a.path) ∧
      registerState st (some a) = st) ∧
    ((a.handler = true ∨ a.nativeHandler = true) → a.path = "" →
      register st (some a) = .error "path cannot be empty" ∧
      registerState st (some a) = st) ∧
    ((a.handler = true ∨ a.nativeHandler = true) → a.path ≠ "" →
      supportedMethod (asciiToUpper a.method) = false →
      register st (some a) = .error ("unsupported HTTP method: " ++ a.method) ∧
      registerState st (some a) = st) ∧
    ((a.handler = true ∨ a.nativeHandler = true) → a.path ≠ "" →
      supportedMethod (asciiToUpper a.method) = true →
      register st (some a) =
        .ok { st with
              engine := st.engine ++ [(asciiToUpper a.method, st.basePath ++ a.path)],
              definitions := st.definitions ++ [a] }) := by
  refine ⟨⟨rfl, rfl⟩, ?_, ?_, ?_, ?_⟩
  · intro h1 h2
    have hreg : register st (some a) = .error ("handler cannot be nil for path: " ++ a.path) := by
      simp only [register]
      rw [if_pos (by simp [h1, h2])]
    exact ⟨hreg, by simp [registerState, hreg]⟩
  · intro hh hp
    have hcond : ¬ (¬ a.nativeHandler = true ∧ ¬ a.handler = true) := by
      rcases hh with h | h <;> simp [h]
    have hreg : register st (some a) = .error "path cannot be empty" := by
      simp only [register]
      rw [if_neg hcond, if_pos hp]
    exact ⟨hreg, by simp [registerState, hreg]⟩
  · intro hh hp hm
    have hcond : ¬ (¬ a.nativeHandler = true ∧ ¬ a.handler = true) := by
      rcases hh with h | h <;> simp [h]
    have hreg : register st (some a) = .error ("unsupported HTTP method: " ++ a.method) := by
      simp only [register]
      rw [if_neg hcond, if_neg hp]
      simp [hm]
    exact ⟨hreg, by simp [registerState, hreg]⟩
  · intro hh hp hm
    have hcond : ¬ (¬ a.nativeHandler = true ∧ ¬ a.handler = true) := by
      rcases hh with h | h <;> simp [h]
    simp only [register]
    rw [if_neg hcond, if_neg hp]
    simp [hm]

theorem register_validation_witness :
    (register stFix none = .error "api definition cannot be nil") ∧
    (register stFix (some { method := "GET", path := "/x" }) =
      .error "handler cannot be nil for path: /x") ∧
    (register stFix (some { method := "GET", path := "", handler := true }) =
      .error "path cannot be empty") ∧
    (register stFix (some { method := "TRACE", path := "/x", handler := true }) =
      .error "unsupported HTTP method: TRACE") ∧
    (register stFix (some { method := "GET", path := "/x", handler := true })).isOk = true := by
  refine ⟨(register_validation stFix { method := "GET", path := "/x" }).1.1, ?_, ?_, ?_, ?_⟩
  · exact ((register_validation stFix { method := "GET", path := "/x" }).2.1 rfl rfl).1
  · exact ((register_validation stFix
      { method := "GET", path := "", handler := true }).2.2.1 (Or.inl rfl) rfl).1
  · exact ((register_validation stFix
      { method := "TRACE", path := "/x", handler := true }).2.2.2.1 (Or.inl rfl)
        (by decide) (by rfl)).1
  · rw [(register_validation stFix
      { method := "GET", path := "/x", handler := true }).2.2.2.2 (Or.inl rfl)
        (by decide) (by rfl)]
    rfl

/-- C5 counterexample --- a definition with BOTH handler references set is
accepted by Register and appended to the list, while the claim demands a
distinct error and an unchanged list for every definition that does not have
exactly one handler set. -/
theorem register_both_handlers_accepted :
    defBothHandlers.handler = true ∧ defBothHandlers.nativeHandler = true ∧
    (register stFix (some defBothHandlers)).isOk = true ∧
    (registerState stFix (some defBothHandlers)).definitions.length =
      stFix.definitions.length + 1 := by
  refine ⟨rfl, rfl, by rfl, by rfl⟩

/-- C7 (amended) --- SafeSchemaFromStruct on a nil interface returns the
empty-object schema, and on a pointer to a struct type returns the FULL
schema of that struct: the pointed-to value is never dereferenced (the
function consults only the dynamic type), so a nil pointer to a struct
yields the struct schema, which equals the empty-object schema only when the
struct has no visible fields. -/
theorem safeSchema_nil_and_pointer (now : String) :
    SafeSchemaFromStruct now none = .ok emptyObjectSchema ∧
    ∀ fs : List GoField,
      SafeSchemaFromStruct now (some (.ptrT (.structT fs))) =
        .ok (schemaFromFields now fs) :=
  ⟨rfl, fun _ => rfl⟩

/-- Projection used to separate the two schemas of the C7 counterexample:
the number of properties of a successful schema. -/
def schemaPropsCount : Except String Json → ℕ
  | .ok (Json.obj kvs) =>
      match lookupA kvs "properties" with
      | some (Json.obj ps) => ps.length
      | _ => 0
  | _ => 0

/-- C7 counterexample --- a nil pointer to a one-field struct synthesizes to
that struct schema (one property), not to the empty-object schema the claim
demands for every nil pointer value. -/
theorem safeSchema_nil_pointer_cex :
    SafeSchemaFromStruct "N" (some (.ptrT (.structT [.mk "A" "a" "" "" "" "" .stringT]))) ≠
      .ok emptyObjectSchema ∧
    (SafeSchemaFromStruct "N"
      (some (.ptrT (.structT [.mk "A" "a" "" "" "" "" .stringT])))).isOk = true :=
  ⟨fun h => absurd (congrArg schemaPropsCount h) (by decide), rfl⟩

/-! Fixtures for the method-case claim: the same definition registered with a
lower-case and with an upper-case method string. -/

def defLowerGet : APIDefinition :=
  { method := "get", path := "/u", summary := "S", handler := true }

def defUpperGet : APIDefinition :=
  { method := "GET", path := "/u", summary := "S", handler := true }

/-- The path entry the assembled document carries for /u after registering
one definition. -/
def pathEntryFor (d : APIDefinition) : Option PathItem :=
  match register stFix (some d) with
  | .error _ => none
  | .ok st =>
      match generateSwagger st "t0" with
      | .ok r => lookupA r.1.paths "/u"
      | .error _ => none

/-- C6 (code bug) --- Register accepts the lower-case method (it validates
and hands the engine the upper-cased form), and generation succeeds, but the
stored definition keeps the original string and the method switch of
BuildOpenAPI compares it against the upper-case constants, so the assembled
path entry for a lower-case registration carries NO operation, where the
upper-case registration of the same definition carries one. -/
theorem register_method_case_divergence :
    (register stFix (some defLowerGet)).isOk = true ∧
    (pathEntryFor defLowerGet).isSome = true ∧
    (opsOf ((pathEntryFor defLowerGet).getD emptyPathItem)).length = 0 ∧
    (opsOf ((pathEntryFor defUpperGet).getD emptyPathItem)).length = 1 :=
  ⟨rfl, rfl, rfl, rfl⟩

/-! Fixture for the determinism claim: a response type containing a time.Time
field, whose schema example is the wall clock reading of the generating
call. -/

def defTimeResp : APIDefinition :=
  { method := "GET", path := "/t", summary := "S", handler := true,
    response := some (.structT [.mk "At" "at" "" "" "" "" .timeT]) }

def stTimeResp : RouterState := { stFix with definitions := [defTimeResp] }

set_option maxRecDepth 100000 in
/-- C2 counterexample --- for a fixed router state whose response type holds
a time.Time field, two GenerateSwagger calls at different wall-clock readings
cache different serialized documents: the byte snapshot embeds the clock, so
repeated calls are not byte-identical. -/
theorem generateSwagger_clock_dependence_cex :
    ((generateSwaggerState stTimeResp "2024-01-01T00:00:00Z").swaggerDoc ==
      (generateSwaggerState stTimeResp "2024-01-01T00:00:01Z").swaggerDoc) = false ∧
    (generateSwagger stTimeResp "2024-01-01T00:00:00Z").isOk = true :=
  ⟨by decide, rfl⟩

/-! Lemmas for the struct-schema claim. -/

lemma hasKeyA_insertA {α : Type} (l : List (String × α)) (k k' : String) (v : α) :
    hasKeyA (insertA l k v) k' = (decide (k = k') || hasKeyA l k') := by
  induction l with
  | nil =>
      simp only [insertA, hasKeyA, lookupA]
      by_cases h : k = k' <;> simp [h]
  | cons x xs ih =>
      obtain ⟨k0, v0⟩ := x
      by_cases h : k0 = k
      · subst h
        simp only [insertA, if_pos rfl, hasKeyA, lookupA]
        by_cases h2 : k0 = k' <;> simp [h2]
      · simp only [insertA, if_neg h, hasKeyA, lookupA]
        by_cases h2 : k0 = k'
        · subst h2
          simp [show ¬ (k = k0) from fun hk => h hk.symm]
        · simpa [h2] using ih

/-- Extracts the properties of an object schema. -/
def schemaProps (j : Json) : List (String × Json) :=
  match j with
  | .obj kvs =>
      match lookupA kvs "properties" with
      | some (.obj ps) => ps
      | _ => []
  | _ => []

/-- Extracts the required name list of an object schema. -/
def schemaRequired (j : Json) : List String :=
  match j with
  | .obj kvs =>
      match lookupA kvs "required" with
      | some (.arr xs) =>
          xs.filterMap fun x => match x with | .str s => some s | _ => none
      | _ => []
  | _ => []

lemma processFieldsAux_cons (now : String) (nm jt vt dt et ft : String) (ty : GoType)
    (rest : List GoField) (acc : List (String × Json) × List String) :
    processFieldsAux now (.mk nm jt vt dt et ft ty :: rest) acc =
      if fieldVisible (.mk nm jt vt dt et ft ty) then
        processFieldsAux now rest
          (insertA acc.1 (fieldName (.mk nm jt vt dt et ft ty))
            (decorate (createSchemaFromGoType now ty) (.mk nm jt vt dt et ft ty)),
           if fieldReq (.mk nm jt vt dt et ft ty) then
             acc.2 ++ [fieldName (.mk nm jt vt dt et ft ty)]
           else acc.2)
      else processFieldsAux now rest acc := rfl

lemma processFieldsAux_spec (now : String) :
    ∀ (fs : List GoField) (acc : List (String × Json) × List String),
      (∀ n, hasKeyA (processFieldsAux now fs acc).1 n =
        (hasKeyA acc.1 n || ((fs.filter fieldVisible).map fieldName).contains n)) ∧
      (processFieldsAux now fs acc).2 =
        acc.2 ++ (fs.filter (fun f => fieldVisible f && fieldReq f)).map fieldName := by
  intro fs
  induction fs with
  | nil => intro acc; simp [processFieldsAux]
  | cons f rest ih =>
      obtain ⟨nm, jt, vt, dt, et, ft, ty⟩ := f
      intro acc
      by_cases hv : fieldVisible (GoField.mk nm jt vt dt et ft ty) = true
      · rw [processFieldsAux_cons, if_pos hv]
        constructor
        · intro n
          rw [(ih _).1 n, hasKeyA_insertA]
          simp only [List.filter_cons, hv, ite_true, List.map_cons, List.contains_cons]
          by_cases hn : fieldName (GoField.mk nm jt vt dt et ft ty) = n
          · simp [hn]
          · have hb : (n == fieldName (GoField.mk nm jt vt dt et ft ty)) = false :=
              beq_eq_false_iff_ne.mpr fun h => hn h.symm
            simp [hn, hb]
        · rw [(ih _).2]
          simp only [List.filter_cons, hv, Bool.true_and]
          by_cases hr : fieldReq (GoField.mk nm jt vt dt et ft ty) = true
          · simp [hr, List.append_assoc]
          · have hr2 : fieldReq (GoField.mk nm jt vt dt et ft ty) = false := by simpa using hr
            simp [hr2]
      · rw [processFieldsAux_cons, if_neg hv]
        have hv2 : fieldVisible (GoField.mk nm jt vt dt et ft ty) = false := by simpa using hv
        constructor
        · intro n
          rw [(ih acc).1 n]
          simp [List.filter_cons, hv2]
        · rw [(ih acc).2]
          simp [List.filter_cons, hv2]

lemma filterMap_str_comp (t : List String) :
    List.filterMap
      ((fun x => match x with | Json.str s => some s | _ => none) ∘ Json.str) t = t := by
  induction t with
  | nil => rfl
  | cons a rest ih =>
      simp only [List.filterMap_cons, Function.comp]
      exact congrArg (a :: ·) ih

/-- C8 --- for every struct type, synthesis succeeds and produces a schema
whose properties key set is exactly the set of externally visible field names
(fields with an empty or dash json tag are skipped), and whose required list
is exactly the visible fields that are not marked omitempty plus those whose
validate tag carries the required marker, in declaration order. -/
theorem schemaFromStruct_props_required (now : String) (fs : List GoField) :
    SchemaFromStruct now (some (.structT fs)) = .ok (schemaFromFields now fs) ∧
    (∀ n, hasKeyA (schemaProps (schemaFromFields now fs)) n =
      ((fs.filter fieldVisible).map fieldName).contains n) ∧
    schemaRequired (schemaFromFields now fs) =
      (fs.filter (fun f => fieldVisible f && fieldReq f)).map fieldName := by
  have hspec := processFieldsAux_spec now fs ([], [])
  have hprops : schemaProps (schemaFromFields now fs) = (processFieldsAux now fs ([], [])).1 := by
    simp only [schemaFromFields]
    split <;> simp [schemaProps, lookupA]
  have hreq : schemaRequired (schemaFromFields now fs) = (processFieldsAux now fs ([], [])).2 := by
    simp only [schemaFromFields]
    split
    · simp only [schemaRequired, lookupA]
      simp [filterMap_str_comp]
    · rename_i hlen
      have hnil : (processFieldsAux now fs ([], [])).2 = [] := by
        cases h : (processFieldsAux now fs ([], [])).2 with
        | nil => rfl
        | cons a t => rw [h] at hlen; simp at hlen
      simp only [schemaRequired, lookupA]
      simp [hnil]
  refine ⟨rfl, ?_, ?_⟩
  · intro n
    rw [hprops, hspec.1 n]
    simp [hasKeyA, lookupA]
  · rw [hreq, hspec.2]
    simp

/-! Lemmas for the synthesis-failure claim. -/

lemma buildOpResp_error (now : String) (d : APIDefinition) (op : Operation) (e : String)
    (h : buildOpResp now d op = .error e) :
    ∃ se, SafeSchemaFromStruct now d.response = .error se ∧
      e = "failed to generate response schema: " ++ se := by
  unfold buildOpResp at h
  rcases hd : d.response with _ | t
  · rw [hd] at h; simp at h
  · rw [hd] at h
    rcases hs : SafeSchemaFromStruct now (some t) with se | s
    · rw [hs] at h
      simp at h
      exact ⟨se, rfl, h.symm⟩
    · rw [hs] at h; simp at h

lemma buildOp_error (now : String) (d : APIDefinition) (e : String)
    (h : buildOp now d = .error e) :
    ∃ se,
      (SafeSchemaFromStruct now d.request = .error se ∧
        e = "failed to generate request schema: " ++ se) ∨
      (SafeSchemaFromStruct now d.response = .error se ∧
        e = "failed to generate response schema: " ++ se) := by
  unfold buildOp at h
  rcases hd : d.request with _ | t
  · rw [hd] at h
    obtain ⟨se, hse, he⟩ := buildOpResp_error now d _ e h
    exact ⟨se, Or.inr ⟨hse, he⟩⟩
  · rw [hd] at h
    rcases hs : SafeSchemaFromStruct now (some t) with se | s
    · rw [hs] at h
      simp at h
      exact ⟨se, Or.inl ⟨rfl, h.symm⟩⟩
    · rw [hs] at h
      obtain ⟨se, hse, he⟩ := buildOpResp_error now d _ e h
      exact ⟨se, Or.inr ⟨hse, he⟩⟩

lemma buildPaths_error (now : String) :
    ∀ (l : List APIDefinition) (acc : List (String × PathItem)) (e : String),
      buildPaths now l acc = .error e → ∃ d ∈ l, buildOp now d = .error e := by
  intro l
  induction l with
  | nil => intro acc e h; simp [buildPaths] at h
  | cons d ds ih =>
      intro acc e h
      unfold buildPaths at h
      rcases hb : buildOp now d with eb | op
      · rw [hb] at h
        simp at h
        exact ⟨d, List.mem_cons_self d ds, h ▸ hb⟩
      · rw [hb] at h
        obtain ⟨d2, hd2, he2⟩ := ih _ e h
        exact ⟨d2, List.mem_cons_of_mem d hd2, he2⟩

/-- C9 --- when assembling the registered definitions fails (and that can
only be a schema-synthesis failure of some registered request or response
type), GenerateSwagger returns that failure wrapped in the document-build
error, and neither the cached document bytes nor the generated flag change:
no partial document is published. -/
theorem generateSwagger_synthesis_failure (st : RouterState) (now e : String)
    (ht : st.title ≠ "") (hv : st.version ≠ "")
    (hb : buildOpenAPI st now = .error e) :
    generateSwagger st now = .error ("failed to build OpenAPI document: " ++ e) ∧
    generateSwaggerState st now = st ∧
    ∃ d ∈ st.definitions, ∃ se,
      (SafeSchemaFromStruct now d.request = .error se ∧
        e = "failed to generate request schema: " ++ se) ∨
      (SafeSchemaFromStruct now d.response = .error se ∧
        e = "failed to generate response schema: " ++ se) := by
  have hgen : generateSwagger st now = .error ("failed to build OpenAPI document: " ++ e) := by
    unfold generateSwagger
    rw [if_neg ht, if_neg hv, hb]
  refine ⟨hgen, by simp [generateSwaggerState, hgen], ?_⟩
  have hp : buildPaths now st.definitions [] = .error e := by
    unfold buildOpenAPI at hb
    rcases h2 : buildPaths now st.definitions [] with e2 | ps
    · rw [h2] at hb
      simp at hb
      exact hb ▸ rfl
    · rw [h2] at hb; simp at hb
  obtain ⟨d, hd, he⟩ := buildPaths_error now st.definitions [] e hp
  exact ⟨d, hd, buildOp_error now d e he⟩

/-- Fixture for the synthesis-failure witness: a request type (a plain
string) the synthesizer rejects. -/
def stBadRequest : RouterState :=
  { stFix with definitions :=
      [{ method := "GET", path := "/b", summary := "S", handler := true,
         request := some .stringT }] }

theorem generateSwagger_synthesis_failure_witness :
    generateSwagger stBadRequest "t0" =
      .error "failed to build OpenAPI document: failed to generate request schema: invalid type provided: string" ∧
    generateSwaggerState stBadRequest "t0" = stBadRequest :=
  ⟨(generateSwagger_synthesis_failure stBadRequest "t0"
      "failed to generate request schema: invalid type provided: string"
      (by decide) (by decide) rfl).1,
   (generateSwagger_synthesis_failure stBadRequest "t0"
      "failed to generate request schema: invalid type provided: string"
      (by decide) (by decide) rfl).2.1⟩

/-! Lemmas tracing every operation of the assembled document back to the
definition that built it. -/

lemma lookupA_mem {α : Type} :
    ∀ (l : List (String × α)) (k : String) (v : α), lookupA l k = some v → (k, v) ∈ l := by
  intro l
  induction l with
  | nil => intro k v h; simp [lookupA] at h
  | cons x xs ih =>
      intro k v h
      obtain ⟨k0, v0⟩ := x
      by_cases hk : k0 = k
      · subst hk
        have h2 : v0 = v := by simpa [lookupA] using h
        subst h2
        exact List.mem_cons_self _ _
      · simp only [lookupA, if_neg hk] at h
        exact List.mem_cons_of_mem _ (ih k v h)

lemma mem_insertA {α : Type} :
    ∀ (l : List (String × α)) (k k' : String) (v v' : α),
      (k', v') ∈ insertA l k v → (k' = k ∧ v' = v) ∨ (k', v') ∈ l := by
  intro l
  induction l with
  | nil =>
      intro k k' v v' h
      simp only [insertA, List.mem_singleton, Prod.mk.injEq] at h
      exact Or.inl h
  | cons x xs ih =>
      intro k k' v v' h
      obtain ⟨k0, v0⟩ := x
      by_cases hk : k0 = k
      · subst hk
        simp only [insertA, if_pos rfl] at h
        rcases List.mem_cons.mp h with h | h
        · rw [Prod.ext_iff] at h
          exact Or.inl h
        · exact Or.inr (List.mem_cons_of_mem _ h)
      · simp only [insertA, if_neg hk] at h
        rcases List.mem_cons.mp h with h | h
        · exact Or.inr (List.mem_cons.mpr (Or.inl h))
        · rcases ih k k' v v' h with h2 | h2
          · exact Or.inl h2
          · exact Or.inr (List.mem_cons_of_mem _ h2)

lemma mem_opsOf (pi : PathItem) (o : Operation) :
    o ∈ opsOf pi ↔
      pi.get = some o ∨ pi.post = some o ∨ pi.put = some o ∨
      pi.delete = some o ∨ pi.patch = some o := by
  simp [opsOf, List.reduceOption_mem_iff, eq_comm]

lemma opsOf_emptyPathItem (o : Operation) : o ∈ opsOf emptyPathItem → False := by
  intro h
  rw [mem_opsOf] at h
  rcases h with h | h | h | h | h <;> exact Option.noConfusion h

lemma opsOf_setOp (pi : PathItem) (m : String) (op op' : Operation)
    (h : op' ∈ opsOf (setOp pi m op)) : op' = op ∨ op' ∈ opsOf pi := by
  rw [mem_opsOf] at h
  rw [mem_opsOf]
  unfold setOp at h
  split_ifs at h <;>
    · rcases h with h | h | h | h | h <;>
        first
          | exact Or.inl (Option.some.inj h).symm
          | exact Or.inr (Or.inl h)
          | exact Or.inr (Or.inr (Or.inl h))
          | exact Or.inr (Or.inr (Or.inr (Or.inl h)))
          | exact Or.inr (Or.inr (Or.inr (Or.inr (Or.inl h))))
          | exact Or.inr (Or.inr (Or.inr (Or.inr (Or.inr h))))

lemma opsOf_applyDefaults (p : String) (pi : PathItem) (op : Operation)
    (h : op ∈ opsOf (applyDefaults p pi)) :
    ∃ op0 ∈ opsOf pi, op = addDefaults p op0 := by
  rw [mem_opsOf] at h
  simp only [applyDefaults, Option.map_eq_some'] at h
  rcases h with ⟨o0, ho0, he⟩ | ⟨o0, ho0, he⟩ | ⟨o0, ho0, he⟩ | ⟨o0, ho0, he⟩ | ⟨o0, ho0, he⟩ <;>
    exact ⟨o0, (mem_opsOf pi o0).mpr (by simp [ho0]), he.symm⟩

lemma buildPaths_mem (now : String) :
    ∀ (l : List APIDefinition) (acc res : List (String × PathItem)),
      buildPaths now l acc = .ok res →
      ∀ (p : String) (pi : PathItem) (op : Operation),
        (p, pi) ∈ res → op ∈ opsOf pi →
        (∃ pi0, (p, pi0) ∈ acc ∧ op ∈ opsOf pi0) ∨
        (∃ d ∈ l, d.path = p ∧ buildOp now d = .ok op) := by
  intro l
  induction l with
  | nil =>
      intro acc res h p pi op hmem hop
      simp only [buildPaths, Except.ok.injEq] at h
      subst h
      exact Or.inl ⟨pi, hmem, hop⟩
  | cons d ds ih =>
      intro acc res h p pi op hmem hop
      unfold buildPaths at h
      rcases hb : buildOp now d with e | opd
      · rw [hb] at h; simp at h
      · rw [hb] at h
        rcases ih _ res h p pi op hmem hop with ⟨pi0, hpi0, hop0⟩ | ⟨d2, hd2, hpath, hbop⟩
        · rcases mem_insertA _ _ _ _ _ hpi0 with ⟨hpk, hpv⟩ | hmem0
          · subst hpk
            subst hpv
            rcases opsOf_setOp _ _ _ _ hop0 with heq | hin
            · subst heq
              exact Or.inr ⟨d, List.mem_cons_self _ _, rfl, hb⟩
            · rcases hl : lookupA acc d.path with _ | pi1
              · rw [hl] at hin
                exact absurd hin (opsOf_emptyPathItem op)
              · rw [hl] at hin
                exact Or.inl ⟨pi1, lookupA_mem acc d.path pi1 hl, hin⟩
          · exact Or.inl ⟨pi0, hmem0, hop0⟩
        · exact Or.inr ⟨d2, List.mem_cons_of_mem _ hd2, hpath, hbop⟩

lemma buildOp_ok_props (now : String) (d : APIDefinition) (op : Operation)
    (h : buildOp now d = .ok op) :
    op.security = [] ∧ op.operationId = "" ∧ op.tags = d.tags ∧
    hasKeyA op.responses "400" = true ∧ hasKeyA op.responses "500" = true ∧
    hasKeyA op.responses "401" = false ∧ hasKeyA op.responses "403" = false ∧
    (hasKeyA op.responses "200" = true ↔ d.response.isSome = true) := by
  unfold buildOp buildOpResp at h
  rcases hreq : d.request with _ | tr <;> rw [hreq] at h
  · rcases hresp : d.response with _ | ts <;> rw [hresp] at h
    · simp only [Except.ok.injEq] at h
      subst h
      refine ⟨rfl, rfl, rfl, ?_, ?_, ?_, ?_, ?_⟩ <;>
        simp [insertA, hasKeyA, lookupA, hresp]
    · rcases hs : SafeSchemaFromStruct now (some ts) with e | sc <;> rw [hs] at h
      · simp at h
      · simp only [Except.ok.injEq] at h
        subst h
        refine ⟨rfl, rfl, rfl, ?_, ?_, ?_, ?_, ?_⟩ <;>
          simp [insertA, hasKeyA, lookupA, hresp]
  · rcases hq : SafeSchemaFromStruct now (some tr) with e | sq <;> rw [hq] at h
    · simp at h
    · rcases hresp : d.response with _ | ts <;> rw [hresp] at h
      · simp only [Except.ok.injEq] at h
        subst h
        refine ⟨rfl, rfl, rfl, ?_, ?_, ?_, ?_, ?_⟩ <;>
          simp [insertA, hasKeyA, lookupA, hresp]
      · rcases hs : SafeSchemaFromStruct now (some ts) with e | sc <;> rw [hs] at h
        · simp at h
        · simp only [Except.ok.injEq] at h
          subst h
          refine ⟨rfl, rfl, rfl, ?_, ?_, ?_, ?_, ?_⟩ <;>
            simp [insertA, hasKeyA, lookupA, hresp]

lemma buildOp_ok_200 (now : String) (d : APIDefinition) (op : Operation)
    (h : buildOp now d = .ok op) :
    match d.response with
    | none => hasKeyA op.responses "200" = false
    | some _ => ∃ s, SafeSchemaFromStruct now d.response = .ok s ∧
        lookupA op.responses "200" =
          some { description := "Success", content := some s } := by
  unfold buildOp buildOpResp at h
  rcases hreq : d.request with _ | tr <;> rw [hreq] at h
  · rcases hresp : d.response with _ | ts <;> rw [hresp] at h
    · simp only [Except.ok.injEq] at h
      subst h
      simp [insertA, hasKeyA, lookupA]
    · rcases hs : SafeSchemaFromStruct now (some ts) with e | sc <;> rw [hs] at h
      · simp at h
      · simp only [Except.ok.injEq] at h
        subst h
        exact ⟨sc, rfl, by simp [insertA, lookupA]⟩
  · rcases hq : SafeSchemaFromStruct now (some tr) with e | sq <;> rw [hq] at h
    · simp at h
    · rcases hresp : d.response with _ | ts <;> rw [hresp] at h
      · simp only [Except.ok.injEq] at h
        subst h
        simp [insertA, hasKeyA, lookupA]
      · rcases hs : SafeSchemaFromStruct now (some ts) with e | sc <;> rw [hs] at h
        · simp at h
        · simp only [Except.ok.injEq] at h
          subst h
          exact ⟨sc, rfl, by simp [insertA, lookupA]⟩

lemma addDefaults_of_built (p : String) (op : Operation)
    (h400 : hasKeyA op.responses "400" = true) (h500 : hasKeyA op.responses "500" = true)
    (hsec : op.security = []) (hid : op.operationId = "") :
    addDefaults p op = { op with operationId := generateOperationID p op } := by
  unfold addDefaults
  simp [h400, h500, hsec, hid]
  rfl

lemma finalizeDoc_paths (st : RouterState) (doc0 : OpenAPIDoc) :
    (finalizeDoc st doc0).paths = doc0.paths.map fun pq => (pq.1, applyDefaults pq.1 pq.2) := by
  unfold finalizeDoc
  by_cases hs : doc0.servers.isEmpty = true <;> simp [hs]

lemma generateSwagger_ok (st : RouterState) (now : String) (doc : OpenAPIDoc)
    (st' : RouterState) (h : generateSwagger st now = .ok (doc, st')) :
    ∃ doc0, buildOpenAPI st now = .ok doc0 ∧
      doc.paths = doc0.paths.map fun pq => (pq.1, applyDefaults pq.1 pq.2) := by
  unfold generateSwagger at h
  split at h
  · simp at h
  · split at h
    · simp at h
    · rcases hb : buildOpenAPI st now with e | doc0 <;> rw [hb] at h
      · simp at h
      · split at h
        · rename_i e heq
          exact absurd heq (by simp)
        · rename_i doc0x heq
          obtain rfl : doc0 = doc0x := by injection heq
          split at h
          · simp at h
          · refine ⟨doc0, rfl, ?_⟩
            simp only [Except.ok.injEq, Prod.mk.injEq] at h
            rw [← h.1, finalizeDoc_paths]

lemma buildOpenAPI_ok (st : RouterState) (now : String) (doc0 : OpenAPIDoc)
    (h : buildOpenAPI st now = .ok doc0) :
    buildPaths now st.definitions [] = .ok doc0.paths := by
  unfold buildOpenAPI at h
  rcases h2 : buildPaths now st.definitions [] with e | ps <;> rw [h2] at h
  · simp at h
  · simp only [Except.ok.injEq] at h
    rw [← h]

/-- C1 (amended) --- in a generated document, every operation entry carries
the default 400 and 500 responses; 401 and 403 are NEVER present, because the
builder does not propagate the definition security requirements into the
operation (so the security-dependent branch of the defaulting pass never
fires); and the entry traces back to the registered definition on its path
that built it (through buildOp and the defaulting pass), with a 200 response
present exactly when that definition declares a response type — and when
present, the 200 response carries the Success description and the synthesized
response schema of that definition as its content. -/
theorem generateSwagger_default_responses
    (st : RouterState) (now : String) (doc : OpenAPIDoc) (st' : RouterState)
    (h : generateSwagger st now = .ok (doc, st'))
    (p : String) (pi : PathItem) (op : Operation)
    (hp : (p, pi) ∈ doc.paths) (hop : op ∈ opsOf pi) :
    hasKeyA op.responses "400" = true ∧ hasKeyA op.responses "500" = true ∧
    hasKeyA op.responses "401" = false ∧ hasKeyA op.responses "403" = false ∧
    ∃ d ∈ st.definitions, d.path = p ∧
      (∃ opb, buildOp now d = .ok opb ∧ op = addDefaults p opb ∧
        op.responses = opb.responses) ∧
      (hasKeyA op.responses "200" = true ↔ d.response.isSome = true) ∧
      (match d.response with
       | none => hasKeyA op.responses "200" = false
       | some _ => ∃ s, SafeSchemaFromStruct now d.response = .ok s ∧
           lookupA op.responses "200" =
             some { description := "Success", content := some s }) := by
  obtain ⟨doc0, hb, hpaths⟩ := generateSwagger_ok st now doc st' h
  rw [hpaths] at hp
  obtain ⟨⟨p0, pi0⟩, hmem0, heq⟩ := List.mem_map.mp hp
  obtain ⟨hpe, hpie⟩ := Prod.mk.inj heq
  subst hpe
  obtain ⟨op0, hop0, hope⟩ := opsOf_applyDefaults p0 pi0 op (hpie ▸ hop)
  have hbp := buildOpenAPI_ok st now doc0 hb
  rcases buildPaths_mem now st.definitions [] doc0.paths hbp p0 pi0 op0 hmem0 hop0 with
    ⟨pi1, hpi1, _⟩ | ⟨d, hd, hdp, hbop⟩
  · exact absurd hpi1 (List.not_mem_nil _)
  · obtain ⟨hsec, hid, _, h400, h500, h401, h403, h200⟩ := buildOp_ok_props now d op0 hbop
    have h200c := buildOp_ok_200 now d op0 hbop
    have hadd : op = { op0 with operationId := generateOperationID p0 op0 } := by
      rw [hope, addDefaults_of_built p0 op0 h400 h500 hsec hid]
    have hresp : op.responses = op0.responses := by rw [hadd]
    refine ⟨?_, ?_, ?_, ?_, d, hd, hdp, ⟨op0, hbop, hope, hresp⟩, ?_, ?_⟩
    · rw [hresp]; exact h400
    · rw [hresp]; exact h500
    · rw [hresp]; exact h401
    · rw [hresp]; exact h403
    · rw [hresp]; exact h200
    · rw [hresp]; exact h200c

/-- C4 (amended) --- every operation of a generated document carries the
SYNTHESIZED identifier (lower-cased first tag, or the word operation, plus
the sanitized path): the builder does not copy the definition operation
identifier into the operation, so the defaulting pass always finds it empty
and overwrites it, even when the definition declared an explicit one. -/
theorem generateSwagger_operation_ids
    (st : RouterState) (now : String) (doc : OpenAPIDoc) (st' : RouterState)
    (h : generateSwagger st now = .ok (doc, st'))
    (p : String) (pi : PathItem) (op : Operation)
    (hp : (p, pi) ∈ doc.paths) (hop : op ∈ opsOf pi) :
    op.operationId = generateOperationID p op ∧
    ∃ d ∈ st.definitions, d.path = p ∧ op.tags = d.tags := by
  obtain ⟨doc0, hb, hpaths⟩ := generateSwagger_ok st now doc st' h
  rw [hpaths] at hp
  obtain ⟨⟨p0, pi0⟩, hmem0, heq⟩ := List.mem_map.mp hp
  obtain ⟨hpe, hpie⟩ := Prod.mk.inj heq
  subst hpe
  obtain ⟨op0, hop0, hope⟩ := opsOf_applyDefaults p0 pi0 op (hpie ▸ hop)
  have hbp := buildOpenAPI_ok st now doc0 hb
  rcases buildPaths_mem now st.definitions [] doc0.paths hbp p0 pi0 op0 hmem0 hop0 with
    ⟨pi1, hpi1, _⟩ | ⟨d, hd, hdp, hbop⟩
  · exact absurd hpi1 (List.not_mem_nil _)
  · obtain ⟨hsec, hid, htags, h400, h500, _, _, _⟩ := buildOp_ok_props now d op0 hbop
    have hadd : op = { op0 with operationId := generateOperationID p0 op0 } := by
      rw [hope, addDefaults_of_built p0 op0 h400 h500 hsec hid]
    constructor
    · rw [hadd]
      rfl
    · exact ⟨d, hd, hdp, by rw [hadd]; exact htags⟩

/-! Fixtures for the response-defaults and operation-id claims. -/

/-- A definition declaring a security requirement (not propagated by the
builder) and a response type. -/
def defSecured : APIDefinition :=
  { method := "GET", path := "/s", summary := "S", handler := true,
    security := [[("bearerAuth", ([] : List String))]],
    response := some (.structT [.mk "ID" "id" "" "" "" "" .int64T]) }

def stSecured : RouterState := { stFix with definitions := [defSecured] }

/-- The single operation of the document generated from stSecured. -/
def opSecured : Operation :=
  (match generateSwagger stSecured "t0" with
    | .ok r => (lookupA r.1.paths "/s").bind (fun pi => pi.get)
    | .error _ => none).getD {}

theorem generateSwagger_default_responses_witness :
    hasKeyA opSecured.responses "400" = true ∧
    hasKeyA opSecured.responses "500" = true ∧
    hasKeyA opSecured.responses "401" = false ∧
    lookupA opSecured.responses "200" =
      some { description := "Success",
             content := some (schemaFromFields "t0"
               [.mk "ID" "id" "" "" "" "" .int64T]) } := by
  have h := generateSwagger_default_responses stSecured "t0" _ _ rfl "/s" _ _
    (List.Mem.head _) (List.Mem.head _)
  exact ⟨h.1, h.2.1, h.2.2.1, by rfl⟩

/-- C1 counterexample --- the registered definition declares a security
requirement, yet the generated operation carries neither a 401 nor a 403
response: the original claim (present if and only if the definition declares
security) fails in the if direction. -/
theorem generateSwagger_security_responses_cex :
    defSecured.security.isEmpty = false ∧
    (generateSwagger stSecured "t0").isOk = true ∧
    hasKeyA opSecured.responses "401" = false ∧
    hasKeyA opSecured.responses "403" = false :=
  ⟨rfl, rfl, rfl, rfl⟩

/-- A definition with an explicit operation identifier and a braced path
parameter. -/
def defExplicitId : APIDefinition :=
  { method := "GET",
    path := "/users/" ++ String.singleton lbChar ++ "id" ++ String.singleton rbChar,
    summary := "S", handler := true, operationId := "customId", tags := ["users"] }

def stExplicitId : RouterState := { stFix with definitions := [defExplicitId] }

/-- The single operation of the document generated from stExplicitId. -/
def opExplicitId : Operation :=
  (match generateSwagger stExplicitId "t0" with
    | .ok r => (lookupA r.1.paths defExplicitId.path).bind (fun pi => pi.get)
    | .error _ => none).getD {}

theorem generateSwagger_operation_ids_witness :
    opExplicitId.operationId = generateOperationID defExplicitId.path opExplicitId := by
  have h := generateSwagger_operation_ids stExplicitId "t0" _ _ rfl defExplicitId.path _ _
    (List.Mem.head _) (List.Mem.head _)
  exact h.1

/-- C4 counterexample --- the definition declares the explicit identifier
customId, but the generated operation carries the synthesized identifier
users_users: explicit identifiers are not kept. -/
theorem generateSwagger_operation_ids_cex :
    defExplicitId.operationId = "customId" ∧
    opExplicitId.operationId = "users_users" ∧
    ("users_users" = "customId") = False :=
  ⟨rfl, rfl, by simp⟩

/-! Time-independence of schema synthesis on types without time.Time, leading
to the amended determinism claim. -/

mutual
theorem createSchema_time_indep (a b : String) :
    ∀ (t : GoType), t.hasTime = false →
      createSchemaFromGoType a t = createSchemaFromGoType b t
  | .stringT, _ => rfl
  | .intT, _ => rfl
  | .int64T, _ => rfl
  | .uint8T, _ => rfl
  | .uintT, _ => rfl
  | .uint64T, _ => rfl
  | .float32T, _ => rfl
  | .float64T, _ => rfl
  | .boolT, _ => rfl
  | .sliceT e, h => by
      have he : e.hasTime = false := by simpa [GoType.hasTime] using h
      by_cases hu : isUint8 e = true <;>
        simp [createSchemaFromGoType, hu, createSchema_time_indep a b e he]
  | .arrayT e, h => by
      have he : e.hasTime = false := by simpa [GoType.hasTime] using h
      simp [createSchemaFromGoType, createSchema_time_indep a b e he]
  | .timeT, h => by simp [GoType.hasTime] at h
  | .structT fs, h => by
      have hf : fieldsHaveTime fs = false := by simpa [GoType.hasTime] using h
      simp [createSchemaFromGoType, processFields_time_indep a b fs hf]
  | .ptrT e, h => by
      have he : e.hasTime = false := by simpa [GoType.hasTime] using h
      simp [createSchemaFromGoType, createSchema_time_indep a b e he]
  | .ifaceT, _ => rfl
  | .mapT e, h => by
      have he : e.hasTime = false := by simpa [GoType.hasTime] using h
      simp [createSchemaFromGoType, createSchema_time_indep a b e he]
  | .otherT, _ => rfl
theorem processFields_time_indep (a b : String) :
    ∀ (fs : List GoField), fieldsHaveTime fs = false →
      ∀ acc, processFieldsAux a fs acc = processFieldsAux b fs acc
  | [], _, _ => rfl
  | .mk nm jt vt dt et ft ty :: fs, h, acc => by
      have h1 : ty.hasTime = false := by
        have := h
        simp only [fieldsHaveTime, Bool.or_eq_false_iff] at this
        exact this.1
      have h2 : fieldsHaveTime fs = false := by
        have := h
        simp only [fieldsHaveTime, Bool.or_eq_false_iff] at this
        exact this.2
      rw [processFieldsAux_cons, processFieldsAux_cons]
      split_ifs with hv
      all_goals first
        | exact processFields_time_indep a b fs h2 acc
        | (rw [createSchema_time_indep a b ty h1]
           exact processFields_time_indep a b fs h2 _)
end

/-- Whether an optional request or response type is free of time.Time. -/
def typeNoTime : Option GoType → Bool
  | none => true
  | some t => !t.hasTime

/-- Whether a definition mentions no time.Time in its body types. -/
def defNoTime (d : APIDefinition) : Bool :=
  typeNoTime d.request && typeNoTime d.response

lemma schemaFromFields_time_indep (a b : String) (fs : List GoField)
    (h : fieldsHaveTime fs = false) :
    schemaFromFields a fs = schemaFromFields b fs := by
  unfold schemaFromFields
  rw [processFields_time_indep a b fs h]

lemma derefOnce_hasTime (t : GoType) (h : t.hasTime = false) :
    (derefOnce t).hasTime = false := by
  cases t <;> simpa [derefOnce, GoType.hasTime] using h

lemma SchemaFromStruct_some (now : String) (t : GoType) :
    SchemaFromStruct now (some t) =
      match derefOnce t with
      | .structT fs => .ok (schemaFromFields now fs)
      | .timeT => .ok emptyObjectSchema
      | u => .error ("input must be a struct type, got " ++ typeName u) := rfl

lemma SchemaFromStruct_time_indep (a b : String) (ot : Option GoType)
    (h : typeNoTime ot = true) :
    SchemaFromStruct a ot = SchemaFromStruct b ot := by
  rcases ot with _ | t
  · rfl
  · have ht : t.hasTime = false := by simpa [typeNoTime] using h
    have hd := derefOnce_hasTime t ht
    rw [SchemaFromStruct_some, SchemaFromStruct_some]
    generalize derefOnce t = u at hd ⊢
    cases u
    case structT fs =>
      exact congrArg Except.ok
        (schemaFromFields_time_indep a b fs (by simpa [GoType.hasTime] using hd))
    all_goals rfl

lemma SafeSchemaFromStruct_some (now : String) (t : GoType) :
    SafeSchemaFromStruct now (some t) =
      (if isStructKind (derefOnce t) then
        match SchemaFromStruct now (some t) with
        | .ok s => .ok s
        | .error e => .error ("failed to generate schema: " ++ e)
      else .error ("invalid type provided: " ++ typeName (derefOnce t))) := rfl

lemma SafeSchema_time_indep (a b : String) (ot : Option GoType)
    (h : typeNoTime ot = true) :
    SafeSchemaFromStruct a ot = SafeSchemaFromStruct b ot := by
  rcases ot with _ | t
  · rfl
  · rw [SafeSchemaFromStruct_some, SafeSchemaFromStruct_some,
      SchemaFromStruct_time_indep a b (some t) h]

lemma buildOpResp_time_indep (a b : String) (d : APIDefinition) (op : Operation)
    (h : typeNoTime d.response = true) :
    buildOpResp a d op = buildOpResp b d op := by
  unfold buildOpResp
  rw [SafeSchema_time_indep a b d.response h]

lemma buildOp_time_indep (a b : String) (d : APIDefinition) (h : defNoTime d = true) :
    buildOp a d = buildOp b d := by
  have h1 : typeNoTime d.request = true := by
    simp only [defNoTime, Bool.and_eq_true] at h
    exact h.1
  have h2 : typeNoTime d.response = true := by
    simp only [defNoTime, Bool.and_eq_true] at h
    exact h.2
  unfold buildOp
  rw [SafeSchema_time_indep a b d.request h1]
  simp only [show ∀ op, buildOpResp a d op = buildOpResp b d op from
    fun op => buildOpResp_time_indep a b d op h2]

lemma buildPaths_time_indep (a b : String) :
    ∀ (l : List APIDefinition) (acc : List (String × PathItem)),
      (∀ d ∈ l, defNoTime d = true) → buildPaths a l acc = buildPaths b l acc := by
  intro l
  induction l with
  | nil => intro acc _; rfl
  | cons d ds ih =>
      intro acc h
      unfold buildPaths
      rw [buildOp_time_indep a b d (h d (List.mem_cons_self d ds))]
      cases buildOp b d with
      | error e => rfl
      | ok op => exact ih _ fun d2 hd2 => h d2 (List.mem_cons_of_mem _ hd2)

lemma buildOpenAPI_time_indep (a b : String) (st : RouterState)
    (h : ∀ d ∈ st.definitions, defNoTime d = true) :
    buildOpenAPI st a = buildOpenAPI st b := by
  unfold buildOpenAPI
  rw [buildPaths_time_indep a b st.definitions [] h]

/-- C2 (amended) --- for a fixed router configuration (definitions, info,
base path, security schemes) whose request and response types contain no
time.Time field, GenerateSwagger is independent of the wall clock and of the
previously cached snapshot and flag: repeated calls return the same document,
cache the same bytes, and leave identical states.  (The counterexample shows
the clause about time.Time cannot be dropped: a time.Time field embeds the
clock in the serialized bytes.) -/
theorem generateSwagger_deterministic (st : RouterState) (n1 n2 : String)
    (x1 x2 : Option String) (b1 b2 : Bool)
    (h : ∀ d ∈ st.definitions, defNoTime d = true) :
    generateSwagger { st with swaggerDoc := x1, generated := b1 } n1 =
    generateSwagger { st with swaggerDoc := x2, generated := b2 } n2 := by
  have hb : buildOpenAPI { st with swaggerDoc := x1, generated := b1 } n1 =
      buildOpenAPI { st with swaggerDoc := x2, generated := b2 } n2 := by
    have e1 : buildOpenAPI { st with swaggerDoc := x1, generated := b1 } n1 =
        buildOpenAPI st n1 := rfl
    have e2 : buildOpenAPI { st with swaggerDoc := x2, generated := b2 } n2 =
        buildOpenAPI st n2 := rfl
    rw [e1, e2]
    exact buildOpenAPI_time_indep n1 n2 st h
  unfold generateSwagger
  rw [hb]
  rfl

/-- Fixture for the determinism witness: one plain definition with no body
types. -/
def stPlain : RouterState :=
  { stFix with definitions :=
      [{ method := "GET", path := "/u", summary := "S", handler := true }] }

theorem generateSwagger_deterministic_witness :
    generateSwagger { stPlain with swaggerDoc := none, generated := false } "n1" =
    generateSwagger { stPlain with swaggerDoc := some "old", generated := true } "n2" :=
  generateSwagger_deterministic stPlain "n1" "n2" none (some "old") false true (by decide)

end GoSwagger
